import Mathlib

/-!
Verification development for the eml2pdf batch converter (src/eml2pdf.py).

The Python source is shallowly embedded below.  External collaborators that
the source calls into (the Python codec registry, the standard email parsing
library, the filesystem and the PDF renderer) are represented by explicit
parameters or by small faithful models, each documented at its definition.
Bytes are modelled as natural numbers (< 256 in every use).
-/

namespace Eml2Pdf

/-! ### Byte-level codecs

`bytes.decode(enc)` in the source goes through Python's codec registry.
The registry itself is external, so functions that use it take a parameter
`dec : String → List Nat → Option String` (`none` models `UnicodeDecodeError`
or `LookupError`, `some s` a successful decode).  Two codecs that the claims
exercise concretely, strict UTF-8 and Latin-1, are modelled faithfully. -/

/-- Latin-1 decoding: every byte maps 1:1 to the code point of the same
value, so it is total (`bytes.decode('latin-1')` never raises). -/
def latin1Decode (bs : List Nat) : String :=
  ⟨bs.map Char.ofNat⟩

/-- UTF-8 continuation byte test (`0x80..0xBF`). -/
def contByte (b : Nat) : Bool :=
  decide (0x80 ≤ b) && decide (b < 0xC0)

/-- One step of strict UTF-8 decoding: reads a single code point off the
front of the byte list, rejecting overlong forms, surrogates and code points
above `0x10FFFF`, exactly as Python's strict `bytes.decode('utf-8')` does. -/
def utf8Step : List Nat → Option (Char × List Nat)
  | [] => none
  | b :: rest =>
    if b < 0x80 then some (Char.ofNat b, rest)
    else if b < 0xC2 then none
    else if b < 0xE0 then
      match rest with
      | b1 :: r =>
        if contByte b1 then
          some (Char.ofNat ((b - 0xC0) * 0x40 + (b1 - 0x80)), r)
        else none
      | [] => none
    else if b < 0xF0 then
      match rest with
      | b1 :: b2 :: r =>
        if contByte b1 ∧ contByte b2 ∧ ¬(b = 0xE0 ∧ b1 < 0xA0) ∧ ¬(b = 0xED ∧ 0xA0 ≤ b1) then
          some (Char.ofNat (((b - 0xE0) * 0x40 + (b1 - 0x80)) * 0x40 + (b2 - 0x80)), r)
        else none
      | _ => none
    else if b < 0xF5 then
      match rest with
      | b1 :: b2 :: b3 :: r =>
        if contByte b1 ∧ contByte b2 ∧ contByte b3 ∧
            ¬(b = 0xF0 ∧ b1 < 0x90) ∧ ¬(b = 0xF4 ∧ 0x90 ≤ b1) then
          some (Char.ofNat (((((b - 0xF0) * 0x40 + (b1 - 0x80)) * 0x40 + (b2 - 0x80)) * 0x40
            + (b3 - 0x80))), r)
        else none
      | _ => none
    else none

/-- Strict UTF-8 decoding driver.  The fuel argument is the byte count; each
step consumes at least one byte, so the `0, _ :: _` branch is unreachable
from `utf8Decode?`. -/
def utf8DecodeAux : Nat → List Nat → Option (List Char)
  | _, [] => some []
  | 0, _ :: _ => none
  | n + 1, b :: rest =>
    match utf8Step (b :: rest) with
    | none => none
    | some (c, r) => (utf8DecodeAux n r).map (c :: ·)

/-- Strict UTF-8 decoding of a byte list (`bytes.decode('utf-8')`). -/
def utf8Decode? (bs : List Nat) : Option String :=
  (utf8DecodeAux bs.length bs).map (⟨·⟩)

/-- Concrete codec registry used to instantiate parametric theorems at
concrete inputs.  UTF-8 (strict) and Latin-1 are faithful; every other
charset name behaves like an unknown codec (`LookupError`, modelled `none`).
The Japanese codecs in the source's fallback list are external C
implementations; all general theorems below quantify over the registry, so
nothing proved depends on this stand-in outside those names. -/
def codecs (name : String) (bs : List Nat) : Option String :=
  if name = "utf-8" then utf8Decode? bs
  else if name = "latin-1" then some (latin1Decode bs)
  else none

/-- Replace-mode codec registry (`bytes.decode(cs, errors='replace')`).
Replace-mode agrees with strict decoding whenever strict decoding succeeds;
the claims only exercise such inputs, so bytes a charset rejects are left
behaving like an unknown codec here.  General theorems quantify over this
registry as well. -/
def codecsR (name : String) (bs : List Nat) : Option String :=
  if name = "utf-8" then utf8Decode? bs
  else if name = "latin-1" then some (latin1Decode bs)
  else none

/-! ### Base64 (used by the encoded-word scenario of claim C1) -/

/-- Value of one character of the standard base64 alphabet (0 for characters
outside the alphabet; the scenarios only use alphabet characters). -/
def b64Val (c : Char) : Nat :=
  if 'A' ≤ c ∧ c ≤ 'Z' then c.toNat - 'A'.toNat
  else if 'a' ≤ c ∧ c ≤ 'z' then c.toNat - 'a'.toNat + 26
  else if '0' ≤ c ∧ c ≤ '9' then c.toNat - '0'.toNat + 52
  else if c = '+' then 62
  else if c = '/' then 63
  else 0

/-- Base64 group decoding: 4 characters to 3 bytes, with the usual short
final groups (3 characters to 2 bytes, 2 characters to 1 byte). -/
def b64Groups : List Char → List Nat
  | c1 :: c2 :: c3 :: c4 :: rest =>
    let n := ((b64Val c1 * 0x40 + b64Val c2) * 0x40 + b64Val c3) * 0x40 + b64Val c4
    n / 0x10000 :: n / 0x100 % 0x100 :: n % 0x100 :: b64Groups rest
  | [c1, c2, c3] =>
    let n := (b64Val c1 * 0x40 + b64Val c2) * 0x40 + b64Val c3
    [n / 0x1000, n / 0x10 % 0x100]
  | [c1, c2] =>
    let n := b64Val c1 * 0x40 + b64Val c2
    [n / 0x10]
  | _ => []

/-- Base64 decoding of a padded or unpadded base64 text. -/
def b64decode (s : String) : List Nat :=
  b64Groups (s.data.filter (· ≠ '='))

/-! ### Header values

`email.header.decode_header` splits a raw header value into segments: plain
text segments and encoded-word segments carrying transfer-decoded payload
bytes and a declared charset (`None` for raw byte runs).  A header value is
modelled by that segment list. -/

/-- One segment of a raw header value as produced by the standard
`decode_header` splitter: literal text, or payload bytes with an optional
declared charset. -/
inductive HdrTok where
  | lit (s : String)
  | enc (bs : List Nat) (charset : Option String)
  deriving DecidableEq

/-- Python's `charset or 'utf-8'`: `None` and the empty string are falsy and
fall back to `'utf-8'`. -/
def normCharset : Option String → String
  | none => "utf-8"
  | some c => if c = "" then "utf-8" else c

/-- The candidate charset list of `decode_mime_header`, source line 64:
declared charset first, then the fixed fallback list. -/
def encList (charset : String) : List String :=
  [charset, "utf-8", "shift_jis", "iso-2022-jp", "euc-jp", "latin-1"]

/-- The `for enc in [...]: try ... break / except ... continue / else:`
loop of `decode_mime_header` (source lines 64-71): first charset that
decodes wins; if every candidate fails, decode as Latin-1. -/
def tryEncs (dec : String → List Nat → Option String) (bs : List Nat) : List String → String
  | [] => latin1Decode bs
  | e :: rest =>
    match dec e bs with
    | some s => s
    | none => tryEncs dec bs rest

/-- `' '.join(parts)` (also reused for other separators). -/
def pyJoin (sep : String) : List String → String
  | [] => ""
  | [x] => x
  | x :: xs => x ++ sep ++ pyJoin sep xs

/-- Decoding of one segment inside `decode_mime_header`: bytes go through
the fallback chain, literal text passes through (source lines 62-73). -/
def decodeTok (dec : String → List Nat → Option String) : HdrTok → String
  | .lit s => s
  | .enc bs cs => tryEncs dec bs (encList (normCharset cs))

/-- `decode_mime_header` (source lines 56-74) on a header value given by its
segment list: decode every segment, join with single spaces.  The function
is total by construction for every segment list, mirroring the fact that
the Python function never raises (its terminal fallback is Latin-1). -/
def decode_mime_header (dec : String → List Nat → Option String)
    (toks : List HdrTok) : String :=
  pyJoin " " (toks.map (decodeTok dec))

/-! ### Header values as the message parser actually sees them

`parse_eml` opens the file with `policy=policy.default` and reads headers
with `str(msg.get(...))`.  Under the default policy the library itself
decodes encoded words (RFC 2047), but renders each header according to its
kind: the Subject is an unstructured header, whose `str()` is the decoded
segment sequence with whitespace between two adjacent encoded words
removed; From, To and Cc are address headers and Date is a date header,
whose `str()` re-serializes the parsed structure (quoting display names,
keeping the raw value for an unparsable date, and so on).  The unstructured
rendering is modelled segment by segment below; the structured renderings
are library-internal and are modelled by the rendered string itself on the
message record.  The library's degraded path for an encoded word whose
declared charset fails to decode (a surrogate-escape rendering whose result
is not even representable in this embedding's character type) is kept
abstract as a parameter `degraded`; no theorem below constrains it, and
every theorem that touches an encoded word assumes its charset decodes. -/

/-- Whether a segment is an encoded word. -/
def HdrTok.isEnc : HdrTok → Bool
  | .lit _ => false
  | .enc _ _ => true

/-- One segment as rendered by `str()` of an unstructured header under the
default policy: an encoded word is decoded with its declared charset; when
that decode fails the library's degraded rendering `degraded` — abstract
here — is used. -/
def policyTok (dec : String → List Nat → Option String)
    (degraded : List Nat → Option String → String) : HdrTok → String
  | .lit s => s
  | .enc bs cs =>
    match dec (normCharset cs) bs with
    | some s => s
    | none => degraded bs cs

/-- `str(msg.get('Subject', ...))` under the default policy: decoded
segments joined with single spaces, except that the boundary between two
adjacent encoded words collapses (RFC 2047 section 6.2, unstructured
headers only). -/
def policyHeaderStr (dec : String → List Nat → Option String)
    (degraded : List Nat → Option String → String) : List HdrTok → String
  | [] => ""
  | [t] => policyTok dec degraded t
  | t1 :: t2 :: ts =>
    policyTok dec degraded t1 ++ (if t1.isEnc && t2.isEnc then "" else " ") ++
      policyHeaderStr dec degraded (t2 :: ts)

/-- Arbitrary concrete instantiation of the abstract degraded rendering,
used only to apply parametric theorems at concrete inputs; every concrete
input below decodes successfully, so the choice is immaterial. -/
def degradedStandIn : List Nat → Option String → String :=
  fun bs _ => latin1Decode bs

/-! ### Message part trees and body extraction

The body of a parsed message is a tree of parts: leaves with a content type
and content, and multipart containers with an ordered child list.  What the
source observes of a part is `get_content_type()`, `get_content()` (which
may yield a `str`, `bytes`, another object, or raise) and
`get_content_charset()`; leaves carry those observations directly. -/

/-- The value `part.get_content()` yields when it does not raise: a string
(text parts under the default policy), raw bytes, or some other object
(for example a nested message object for `message/*` parts). -/
inductive PayloadVal where
  | str (s : String)
  | bytes (bs : List Nat)
  | other
  deriving DecidableEq

instance {ε α : Type} [DecidableEq ε] [DecidableEq α] : DecidableEq (Except ε α) :=
  fun x y =>
  match x, y with
  | .ok a, .ok b =>
    if h : a = b then isTrue (by rw [h])
    else isFalse (by intro hc; injection hc; exact h (by assumption))
  | .error a, .error b =>
    if h : a = b then isTrue (by rw [h])
    else isFalse (by intro hc; injection hc; exact h (by assumption))
  | .ok _, .error _ => isFalse (by intro hc; cases hc)
  | .error _, .ok _ => isFalse (by intro hc; cases hc)

/-- Observations of a leaf part: its content type, the outcome of
`get_content()` (`Except.error` models raising), and its declared charset
(`get_content_charset()`). -/
structure LeafData where
  ctype : String
  payload : Except Unit PayloadVal
  charset : Option String
  deriving DecidableEq

/-- A message part: a leaf, or a multipart container with a content type
and an ordered list of children. -/
inductive MsgPart where
  | leaf (ld : LeafData)
  | multi (ctype : String) (children : List MsgPart)

/-- `part.get_content_type()`. -/
def ctypeOf : MsgPart → String
  | .leaf ld => ld.ctype
  | .multi c _ => c

/-- `part.get_content()`: on a multipart container it raises (the content
manager has no handler for multipart), on a leaf it yields the recorded
outcome. -/
def getContentOf : MsgPart → Except Unit PayloadVal
  | .leaf ld => ld.payload
  | .multi _ _ => .error ()

/-- `part.get_content_charset()`. -/
def charsetOf : MsgPart → Option String
  | .leaf ld => ld.charset
  | .multi _ _ => none

mutual

/-- `msg.walk()`: the part itself, then every descendant in pre-order. -/
def walk : MsgPart → List MsgPart
  | .leaf ld => [.leaf ld]
  | .multi c cs => .multi c cs :: walkList cs

/-- Concatenated walks of a child list, in order. -/
def walkList : List MsgPart → List MsgPart
  | [] => []
  | p :: ps => walk p ++ walkList ps

end

/-- The `text/plain` scan of `parse_eml` (source lines 91-103): first part
whose content type is `text/plain` and whose content can be obtained as a
string, directly or by a replace-mode charset decode of a bytes payload,
wins (`break`); a part whose extraction raises or yields neither `str` nor
`bytes` is skipped (`continue`). -/
def scanPlain (decR : String → List Nat → Option String) : List MsgPart → Option String
  | [] => none
  | p :: ps =>
    if ctypeOf p = "text/plain" then
      match getContentOf p with
      | .ok (.str s) => some s
      | .ok (.bytes bs) =>
        match decR (normCharset (charsetOf p)) bs with
        | some s => some s
        | none => scanPlain decR ps
      | .ok .other => scanPlain decR ps
      | .error _ => scanPlain decR ps
    else scanPlain decR ps

/-- Dropping of one `<[^>]+>` match: at least one character other than
`>` followed by the first `>`; yields the remainder after the tag, or
`none` when the regex cannot match here. -/
def dropToGt : List Char → Option (List Char)
  | [] => none
  | c :: rest => if c = '>' then some rest else dropToGt rest

/-- Attempted match of `[^>]+>` right after a `<`. -/
def findTagEnd : List Char → Option (List Char)
  | [] => none
  | c :: rest => if c = '>' then none else dropToGt rest

/-- `re.sub(r'<[^>]+>', '', payload)` as a left-to-right scan.  The fuel is
the character count; each step consumes at least one character, so the
`0, _` branch is unreachable from `stripTags`. -/
def stripTagsAux : Nat → List Char → List Char
  | _, [] => []
  | 0, cs => cs
  | n + 1, c :: rest =>
    if c = '<' then
      match findTagEnd rest with
      | some rest2 => stripTagsAux n rest2
      | none => '<' :: stripTagsAux n rest
    else c :: stripTagsAux n rest

/-- Tag removal of the HTML fallback (source line 113). -/
def stripTags (s : String) : String :=
  ⟨stripTagsAux s.data.length s.data⟩

/-- `str.strip()`: leading and trailing whitespace removed.  (Python strips
the Unicode whitespace set; the claims only exercise ASCII whitespace,
for which `Char.isWhitespace` agrees.) -/
def pyStrip (s : String) : String :=
  ⟨(((s.data.dropWhile Char.isWhitespace).reverse.dropWhile Char.isWhitespace).reverse)⟩

/-- The `text/html` fallback scan of `parse_eml` (source lines 106-117):
first part whose content type is `text/html` and whose content is a string
wins, with tags stripped and the result stripped of whitespace; any other
part — including one whose content is bytes, which the fallback does not
decode — is skipped. -/
def scanHtml : List MsgPart → Option String
  | [] => none
  | p :: ps =>
    if ctypeOf p = "text/html" then
      match getContentOf p with
      | .ok (.str s) => some (pyStrip (stripTags s))
      | .ok _ => scanHtml ps
      | .error _ => scanHtml ps
    else scanHtml ps

/-- Body extraction of `parse_eml` (source lines 89-127).  Multipart: the
plain-text scan over `msg.walk()`, then — only when the body is still
empty — the HTML fallback scan.  Single part: the content when it is a
string, the replace-mode decode when it is bytes, empty when it is neither,
and the fixed placeholder when extraction or decoding raises. -/
def extract_body (decR : String → List Nat → Option String) (m : MsgPart) : String :=
  match m with
  | .multi c cs =>
    let body := (scanPlain decR (walk (.multi c cs))).getD ""
    if body = "" then
      match scanHtml (walk (.multi c cs)) with
      | some h => h
      | none => body
    else body
  | .leaf ld =>
    match ld.payload with
    | .error _ => "(本文を読み取れませんでした)"
    | .ok (.str s) => s
    | .ok (.bytes bs) =>
      match decR (normCharset ld.charset) bs with
      | some s => s
      | none => "(本文を読み取れませんでした)"
    | .ok .other => ""

/-! ### The message parser -/

/-- A message document as the parser observes it.  The Subject — an
unstructured header — is absent or present with its raw segment list,
rendered by `policyHeaderStr`.  From, To, Cc and Date are structured
(address and date) headers whose `str()` re-serializes the library's parse
(display names quoted, unparsable dates kept raw, ...); they are absent or
present with that rendered string.  `root` is the body part tree. -/
structure EmlMessage where
  subjectH : Option (List HdrTok)
  fromH : Option String
  toH : Option String
  ccH : Option String
  dateH : Option String
  root : MsgPart

/-- The flat record returned by `parse_eml` (source lines 129-136). -/
structure ParsedMessage where
  subject : String
  from_addr : String
  to_addr : String
  cc_addr : String
  date_str : String
  body : String
  deriving DecidableEq

/-- `str(msg.get('Subject', ''))` under the default policy: the empty
string for an absent header, the unstructured rendering otherwise. -/
def getHeader (dec : String → List Nat → Option String)
    (degraded : List Nat → Option String → String) : Option (List HdrTok) → String
  | none => ""
  | some toks => policyHeaderStr dec degraded toks

/-- `parse_eml` (source lines 77-136) after the file has been read and the
header section parsed: header fields via `str(msg.get(...))` (the rendered
string of each structured header, the unstructured rendering of the
Subject), the subject replaced by the fixed placeholder when falsy (absent
or empty), the body extracted and stripped. -/
def parse_eml (dec decR : String → List Nat → Option String)
    (degraded : List Nat → Option String → String) (m : EmlMessage) : ParsedMessage :=
  let subject0 := getHeader dec degraded m.subjectH
  { subject := if subject0 = "" then "(件名なし)" else subject0
  , from_addr := m.fromH.getD ""
  , to_addr := m.toH.getD ""
  , cc_addr := m.ccH.getD ""
  , date_str := m.dateH.getD ""
  , body := pyStrip (extract_body decR m.root) }

/-! ### Escaping for the renderer's markup (escape_para, source lines 143-150) -/

/-- `str.replace(pat, rep)`: non-overlapping occurrences replaced in one
left-to-right scan.  The fuel is the character count; each step consumes at
least one character (the patterns used are non-empty), so the `0, _ :: _`
branch is unreachable from `pyReplace`. -/
def pyReplaceAux (pat rep : List Char) : Nat → List Char → List Char
  | _, [] => []
  | 0, cs => cs
  | n + 1, c :: cs =>
    if (c :: cs).take pat.length = pat ∧ pat ≠ [] then
      rep ++ pyReplaceAux pat rep n ((c :: cs).drop pat.length)
    else
      c :: pyReplaceAux pat rep n cs

/-- `s.replace(pat, rep)`. -/
def pyReplace (s pat rep : String) : String :=
  ⟨pyReplaceAux pat.data rep.data s.data.length s.data⟩

/-- `escape_para` (source lines 143-150): the five sequential replaces. -/
def escape_para (text : String) : String :=
  let t1 := pyReplace text "&" "&amp;"
  let t2 := pyReplace t1 "<" "&lt;"
  let t3 := pyReplace t2 ">" "&gt;"
  let t4 := pyReplace t3 "\"" "&quot;"
  pyReplace t4 "  " "&nbsp; "

/-! ### The batch driver (batch_convert, source lines 235-267)

The filesystem is modelled by the list of file names in the source
directory; per-file conversion (`eml_to_pdf`, which parses, builds and
renders) is an oracle `conv : String → Except PyExc Unit` recording, for
each name, whether the conversion succeeded or which exception it raised.
Side effects are reflected in the returned record: the progress-callback
invocations in order, the output files written, and the destination
directory creation. -/

/-- Python exceptions that matter to the batch loop.  `except Exception`
catches every `Exception` subclass — I/O errors, value errors, and also
programming errors such as type errors — but not `BaseException`-only
classes such as `KeyboardInterrupt` and `SystemExit`. -/
inductive PyExc where
  | oserror (msg : String)
  | valueError (msg : String)
  | typeError (msg : String)
  | keyboardInterrupt
  | systemExit
  deriving DecidableEq

/-- Whether the exception is an `Exception` subclass, i.e. whether
`except Exception` catches it. -/
def PyExc.isException : PyExc → Bool
  | .keyboardInterrupt => false
  | .systemExit => false
  | _ => true

/-- Whether the exception belongs to the two error categories the
specification expects the driver to recover: file I/O errors and
value/format errors. -/
def PyExc.isExpected : PyExc → Bool
  | .oserror _ => true
  | .valueError _ => true
  | _ => false

/-- `str(e)` as passed to the progress callback. -/
def PyExc.toMsg : PyExc → String
  | .oserror m => m
  | .valueError m => m
  | .typeError m => m
  | .keyboardInterrupt => ""
  | .systemExit => ""

/-- One progress-callback invocation:
`(index, total, filename, ok, errorMessage)`. -/
abbrev Event := Nat × Nat × String × Bool × Option String

/-- Everything observable of a completed batch run: the returned triple
`(success, errors, summary)`, the callback invocations in order, the output
files written in order, and whether the destination directory was created
(`mkdir(parents=True, exist_ok=True)`). -/
structure BatchOutcome where
  success : Nat
  errors : Nat
  summary : String
  events : List Event
  written : List String
  mkdirDone : Bool
  deriving DecidableEq

/-- `Path.stem ++ '.pdf'` needs the index of the last dot of a name. -/
def lastDotIdx : List Char → Option Nat
  | [] => none
  | c :: cs =>
    match lastDotIdx cs with
    | some i => some (i + 1)
    | none => if c = '.' then some 0 else none

/-- `Path(name).stem`: the name without its suffix; the suffix is the part
from the last dot on, provided that dot is neither first nor last. -/
def stemOf (s : String) : String :=
  match lastDotIdx s.data with
  | some i => if 0 < i ∧ i < s.data.length - 1 then ⟨s.data.take i⟩ else s
  | none => s

/-- Code-point comparison of names, as `sorted()` orders same-directory
paths. -/
def lexLe : List Char → List Char → Bool
  | [], _ => true
  | _ :: _, [] => false
  | a :: as, b :: bs =>
    if a.toNat < b.toNat then true
    else if b.toNat < a.toNat then false
    else lexLe as bs

/-- Insertion of a name into an already sorted list. -/
def insertSorted (x : String) : List String → List String
  | [] => [x]
  | y :: ys => if lexLe x.data y.data then x :: y :: ys else y :: insertSorted x ys

/-- `sorted(...)` on file names. -/
def sortNames : List String → List String
  | [] => []
  | x :: xs => insertSorted x (sortNames xs)

/-- Prefix test on character lists. -/
def listPrefixB : List Char → List Char → Bool
  | [], _ => true
  | _ :: _, [] => false
  | a :: as, b :: bs => a == b && listPrefixB as bs

/-- Whether a name matches the glob pattern `*.eml`, i.e. ends in `.eml`. -/
def matchesEml (f : String) : Bool :=
  listPrefixB ".eml".data.reverse f.data.reverse

/-- `sorted(input_path.glob('*.eml'))`: the names with the expected input
extension, sorted. -/
def emlFilesOf (dir : List String) : List String :=
  sortNames (dir.filter (fun f => matchesEml f))

/-- The per-file loop of `batch_convert` (source lines 250-261), expressed
as a fold over the remaining files with the 0-based index `i`.  A
successful conversion counts a success, emits an ok event and writes
`stem + '.pdf'`; an exception caught by `except Exception` counts an error
and emits a failure event carrying `str(e)`; any other exception propagates
out of the loop at once.  In the propagating case the model carries only
the escaping exception — the counters and events accumulated before the
abort are not part of any returned value in the source either. -/
def batchLoop (conv : String → Except PyExc Unit) (total : Nat) :
    List String → Nat → Except PyExc (Nat × Nat × List Event × List String)
  | [], _ => .ok (0, 0, [], [])
  | f :: fs, i =>
    match conv f with
    | .ok _ =>
      match batchLoop conv total fs (i + 1) with
      | .ok (s, e, evs, ws) =>
        .ok (s + 1, e, (i + 1, total, f, true, none) :: evs, (stemOf f ++ ".pdf") :: ws)
      | .error exc => .error exc
    | .error exc =>
      if exc.isException then
        match batchLoop conv total fs (i + 1) with
        | .ok (s, e, evs, ws) =>
          .ok (s, e + 1, (i + 1, total, f, false, some exc.toMsg) :: evs, ws)
        | .error exc2 => .error exc2
      else .error exc

/-- The summary sentence (source lines 263-265). -/
def mkSummary (success errors total : Nat) : String :=
  "完了: " ++ toString success ++ "/" ++ toString total ++ " 件成功" ++
    (if errors ≠ 0 then ", " ++ toString errors ++ " 件エラー" else "")

/-- `batch_convert` (source lines 235-267).  The destination directory is
created (recursively, tolerating existence) before anything else; with no
matching files the fixed no-files summary is returned at once; otherwise
the loop runs and the summary is built from the counters. -/
def batch_convert (dir : List String) (conv : String → Except PyExc Unit) :
    Except PyExc BatchOutcome :=
  let files := emlFilesOf dir
  if files.isEmpty then
    .ok ⟨0, 0, ".eml ファイルが見つかりません", [], [], true⟩
  else
    match batchLoop conv files.length files 0 with
    | .ok (s, e, evs, ws) => .ok ⟨s, e, mkSummary s e files.length, evs, ws, true⟩
    | .error exc => .error exc

/-- The success counter the loop computes, file by file. -/
def succCount (conv : String → Except PyExc Unit) : List String → Nat
  | [] => 0
  | f :: fs =>
    match conv f with
    | .ok _ => succCount conv fs + 1
    | .error _ => succCount conv fs

/-- The failure counter the loop computes, file by file. -/
def failCount (conv : String → Except PyExc Unit) : List String → Nat
  | [] => 0
  | f :: fs =>
    match conv f with
    | .ok _ => failCount conv fs
    | .error _ => failCount conv fs + 1

/-- The progress-callback invocations the loop performs, in order, starting
at 0-based index `i`. -/
def expectedEvents (conv : String → Except PyExc Unit) (total : Nat) :
    List String → Nat → List Event
  | [], _ => []
  | f :: fs, i =>
    (match conv f with
      | .ok _ => (i + 1, total, f, true, none)
      | .error exc => (i + 1, total, f, false, some exc.toMsg)) ::
      expectedEvents conv total fs (i + 1)

/-- The output files the loop writes, in order. -/
def expectedWritten (conv : String → Except PyExc Unit) : List String → List String
  | [] => []
  | f :: fs =>
    match conv f with
    | .ok _ => (stemOf f ++ ".pdf") :: expectedWritten conv fs
    | .error _ => expectedWritten conv fs

/-! ### Helper lemmas -/

/-- The fallback loop returns exactly the first successful decode whenever
some candidate succeeds. -/
theorem tryEncs_first_success (dec : String → List Nat → Option String) (bs : List Nat) :
    ∀ l : List String, (∃ e ∈ l, (dec e bs).isSome = true) →
      l.findSome? (fun e => dec e bs) = some (tryEncs dec bs l)
  | [], h => by
    rcases h with ⟨e, he, _⟩
    cases he
  | e :: rest, h => by
    cases hd : dec e bs with
    | some s => simp [List.findSome?_cons, hd, tryEncs]
    | none =>
      have h' : ∃ e' ∈ rest, (dec e' bs).isSome = true := by
        rcases h with ⟨e', he', hs⟩
        cases he' with
        | head => rw [hd] at hs; cases hs
        | tail _ hmem => exact ⟨e', hmem, hs⟩
      simp [List.findSome?_cons, hd, tryEncs, tryEncs_first_success dec bs rest h']

/-! ### Claim C2 -/

/-- C2 (confirmed): for every byte payload and declared charset — including
unrecognized ones — the Header Decoder's fallback chain tries, in order,
the declared charset then UTF-8, Shift-JIS, ISO-2022-JP, EUC-JP, Latin-1,
and returns the first success; given only that Latin-1 decoding never fails
(it maps every byte 1:1), the chain always succeeds, so `decode_mime_header`
never reaches a failing state — in the source it never raises.  The theorem
quantifies over the codec registry `dec`. -/
theorem claim_C2_theorem (dec : String → List Nat → Option String)
    (hlatin : ∀ b, dec "latin-1" b = some (latin1Decode b))
    (cs : Option String) (bs : List Nat) :
    ∃ s, (encList (normCharset cs)).findSome? (fun e => dec e bs) = some s ∧
      decode_mime_header dec [HdrTok.enc bs cs] = s := by
  have hex : ∃ e ∈ encList (normCharset cs), (dec e bs).isSome = true := by
    refine ⟨"latin-1", by simp [encList], ?_⟩
    rw [hlatin]
    rfl
  exact ⟨tryEncs dec bs (encList (normCharset cs)),
    tryEncs_first_success dec bs _ hex, rfl⟩

/-- C2 witness: a one-byte payload that is invalid UTF-8, declared with an
unrecognized charset, decodes (to the Latin-1 reading) instead of failing. -/
theorem claim_C2_witness :
    ∃ s, (encList (normCharset (some "x-unknown"))).findSome?
        (fun e => codecs e [0xFF]) = some s ∧
      decode_mime_header codecs [HdrTok.enc [0xFF] (some "x-unknown")] = s :=
  claim_C2_theorem codecs (fun _ => rfl) (some "x-unknown") [0xFF]

/-! ### Claim C1 -/

/-- The two-segment Subject value of the counterexample: two adjacent
encoded words with different declared charsets (the standard splitter
coalesces adjacent encoded words only when the charsets agree, so these
stay two segments). -/
def cexC1Toks : List HdrTok :=
  [HdrTok.enc [0x61] (some "utf-8"), HdrTok.enc [0x62] (some "latin-1")]

/-- The counterexample message for C1. -/
def cexC1Msg : EmlMessage :=
  ⟨some cexC1Toks, none, none, none, none,
    .leaf ⟨"text/plain", .ok (.str "body"), none⟩⟩

/-- C1 counterexample: for the Subject `=?utf-8?B?YQ==?= =?latin-1?B?Yg==?=`
the parser stores the policy-rendered value `"ab"` (unstructured header,
whitespace between adjacent encoded words removed — checked against
CPython), while the Header Decoder `decode_mime_header` — which `parse_eml`
never calls — yields `"a b"` (segments joined with spaces).  So the Message
Parser does not apply the Header Decoder to header field values. -/
theorem claim_C1_counterexample :
    (parse_eml codecs codecsR degradedStandIn cexC1Msg).subject = "ab" ∧
    decode_mime_header codecs cexC1Toks = "a b" ∧
    (parse_eml codecs codecsR degradedStandIn cexC1Msg).subject ≠
      decode_mime_header codecs cexC1Toks := by
  refine ⟨?_, ?_, ?_⟩ <;> decide

/-- C1 (amended): the Message Parser stores each header field as rendered
by the email library's default policy, not by calling the Header Decoder:
the Subject (an unstructured header) is the decoded segment sequence with
whitespace between adjacent encoded words removed, and From, To, Cc and
Date (structured headers) are the library's re-serialization of their
parsed values; in particular a Subject consisting of encoded words parses
to the decoded text, not the raw encoded string. -/
theorem claim_C1_theorem (dec decR : String → List Nat → Option String)
    (degraded : List Nat → Option String → String)
    (m : EmlMessage) (toks : List HdrTok)
    (hs : m.subjectH = some toks)
    (hne : policyHeaderStr dec degraded toks ≠ "") :
    (parse_eml dec decR degraded m).subject = policyHeaderStr dec degraded toks ∧
    (parse_eml dec decR degraded m).from_addr = m.fromH.getD "" ∧
    (parse_eml dec decR degraded m).to_addr = m.toH.getD "" ∧
    (parse_eml dec decR degraded m).cc_addr = m.ccH.getD "" ∧
    (parse_eml dec decR degraded m).date_str = m.dateH.getD "" := by
  refine ⟨?_, rfl, rfl, rfl, rfl⟩
  simp [parse_eml, getHeader, hs, hne]

/-- The scenario subject of C1: one Base64/UTF-8 encoded word holding a
Japanese greeting. -/
def jpSubjToks : List HdrTok :=
  [HdrTok.enc (b64decode "44GT44KT44Gr44Gh44Gv") (some "utf-8")]

/-- The scenario message for the C1 witness. -/
def jpMsg : EmlMessage :=
  ⟨some jpSubjToks, none, none, none, none,
    .leaf ⟨"text/plain", .ok (.str "body"), none⟩⟩

/-- C1 witness: the Base64/UTF-8 encoded-word Subject parses to the decoded
Japanese text. -/
theorem claim_C1_witness :
    (parse_eml codecs codecsR degradedStandIn jpMsg).subject = "こんにちは" := by
  have h := claim_C1_theorem codecs codecsR degradedStandIn jpMsg jpSubjToks rfl (by decide)
  exact h.1.trans (by decide)

/-! ### Claims C3, C4, C10 -/

/-- The plain-text scan skips every part that is not `text/plain`. -/
theorem scanPlain_skip (decR : String → List Nat → Option String) :
    ∀ (pre rest : List MsgPart),
      (∀ q ∈ pre, ctypeOf q ≠ "text/plain") →
      scanPlain decR (pre ++ rest) = scanPlain decR rest
  | [], _, _ => rfl
  | p :: pre, rest, h => by
    have hp : ctypeOf p ≠ "text/plain" := h p (List.mem_cons_self p pre)
    have ih := scanPlain_skip decR pre rest (fun q hq => h q (List.mem_cons_of_mem p hq))
    rw [List.cons_append, scanPlain, if_neg hp, ih]

/-- The HTML fallback scan skips every part that is not `text/html`. -/
theorem scanHtml_skip :
    ∀ (pre rest : List MsgPart),
      (∀ q ∈ pre, ctypeOf q ≠ "text/html") →
      scanHtml (pre ++ rest) = scanHtml rest
  | [], _, _ => rfl
  | p :: pre, rest, h => by
    have hp : ctypeOf p ≠ "text/html" := h p (List.mem_cons_self p pre)
    have ih := scanHtml_skip pre rest (fun q hq => h q (List.mem_cons_of_mem p hq))
    rw [List.cons_append, scanHtml, if_neg hp, ih]

/-- The counterexample message for C3: a multipart message whose first
plain-text leaf has empty content, next to a non-empty HTML leaf. -/
def cexC3Msg : MsgPart :=
  .multi "multipart/alternative"
    [.leaf ⟨"text/plain", .ok (.str ""), none⟩,
     .leaf ⟨"text/html", .ok (.str "<p>hello</p>"), none⟩]

/-- C3 counterexample: on a multipart message with a plain-text leaf and an
HTML leaf, the extractor does not return the first plain-text leaf's
content (the empty string) — it returns the HTML part's tag-stripped
content `"hello"`. -/
theorem claim_C3_counterexample :
    scanPlain codecsR (walk cexC3Msg) = some "" ∧
    extract_body codecsR cexC3Msg = "hello" ∧
    extract_body codecsR cexC3Msg ≠ "" := by
  refine ⟨?_, ?_, ?_⟩ <;> decide

/-- C3 (amended): on a multipart message, when the first `text/plain` part
in pre-order traversal yields string content and that content is non-empty,
the Body Extractor returns exactly that content — never the HTML part's. -/
theorem claim_C3_theorem (decR : String → List Nat → Option String)
    (mc : String) (mcs : List MsgPart) (pre post : List MsgPart) (p : MsgPart) (s : String)
    (hw : walk (.multi mc mcs) = pre ++ p :: post)
    (hpre : ∀ q ∈ pre, ctypeOf q ≠ "text/plain")
    (hp : ctypeOf p = "text/plain")
    (hc : getContentOf p = .ok (.str s))
    (hne : s ≠ "") :
    extract_body decR (.multi mc mcs) = s := by
  have hscan : scanPlain decR (walk (.multi mc mcs)) = some s := by
    rw [hw, scanPlain_skip decR pre (p :: post) hpre, scanPlain, if_pos hp, hc]
  simp [extract_body, hscan, hne]

/-- The witness message for C3: a non-empty plain-text part next to an HTML
part. -/
def witC3Msg : MsgPart :=
  .multi "multipart/alternative"
    [.leaf ⟨"text/plain", .ok (.str "plain body"), none⟩,
     .leaf ⟨"text/html", .ok (.str "<p>hello</p>"), none⟩]

/-- C3 witness: the plain-text content wins over the HTML part. -/
theorem claim_C3_witness : extract_body codecsR witC3Msg = "plain body" :=
  claim_C3_theorem codecsR "multipart/alternative" _
    [witC3Msg] [.leaf ⟨"text/html", .ok (.str "<p>hello</p>"), none⟩]
    (.leaf ⟨"text/plain", .ok (.str "plain body"), none⟩) "plain body"
    rfl (by decide) rfl rfl (by decide)

/-- The counterexample leaf for C4: a non-textual single-part message whose
byte payload decodes to `"hi"`. -/
def cexC4Leaf : LeafData :=
  ⟨"application/octet-stream", .ok (.bytes [0x68, 0x69]), none⟩

/-- C4 counterexample: a single-leaf message with the non-textual content
type `application/octet-stream` does not yield empty text — the extractor
decodes the byte payload and returns `"hi"`. -/
theorem claim_C4_counterexample :
    cexC4Leaf.ctype.data.take 5 ≠ "text/".data ∧
    extract_body codecsR (.leaf cexC4Leaf) = "hi" ∧
    extract_body codecsR (.leaf cexC4Leaf) ≠ "" := by
  refine ⟨?_, ?_, ?_⟩ <;> decide

/-- C4 (amended): on a single-leaf (non-multipart) message the Body
Extractor returns the content when it is a string (which, under the default
policy, is the case exactly for textual content types), the charset-decoded
text when the content is bytes that the charset decodes, empty text only
when the content is neither a string nor bytes, and a fixed placeholder
when content extraction raises or the bytes' charset decode raises (an
unknown declared charset raises `LookupError` despite `errors='replace'`). -/
theorem claim_C4_theorem (decR : String → List Nat → Option String) (ld : LeafData) :
    (∀ s, ld.payload = .ok (.str s) → extract_body decR (.leaf ld) = s) ∧
    (ld.payload = .ok .other → extract_body decR (.leaf ld) = "") ∧
    (ld.payload = .error () → extract_body decR (.leaf ld) = "(本文を読み取れませんでした)") ∧
    (∀ bs s, ld.payload = .ok (.bytes bs) → decR (normCharset ld.charset) bs = some s →
      extract_body decR (.leaf ld) = s) ∧
    (∀ bs, ld.payload = .ok (.bytes bs) → decR (normCharset ld.charset) bs = none →
      extract_body decR (.leaf ld) = "(本文を読み取れませんでした)") := by
  refine ⟨?_, ?_, ?_, ?_, ?_⟩
  · intro s h
    simp [extract_body, h]
  · intro h
    simp [extract_body, h]
  · intro h
    simp [extract_body, h]
  · intro bs s h hd
    simp [extract_body, h, hd]
  · intro bs h hd
    simp [extract_body, h, hd]

/-- C4 witness: a plain-text single-leaf message yields its content. -/
theorem claim_C4_witness :
    extract_body codecsR (.leaf ⟨"text/plain", .ok (.str "hello"), none⟩) = "hello" :=
  (claim_C4_theorem codecsR ⟨"text/plain", .ok (.str "hello"), none⟩).1 "hello" rfl

/-- C10 (confirmed): in a multipart message, when the plain-text scan ends
with empty content (in particular when the first plain-text leaf is empty),
the extractor falls through to the HTML fallback: the first `text/html`
part with string content yields its tag-stripped, whitespace-stripped text
rather than the empty plain text. -/
theorem claim_C10_theorem (decR : String → List Nat → Option String)
    (mc : String) (mcs : List MsgPart) (pre post : List MsgPart) (q : MsgPart) (hs : String)
    (hplain : scanPlain decR (walk (.multi mc mcs)) = some "")
    (hw : walk (.multi mc mcs) = pre ++ q :: post)
    (hpre : ∀ r ∈ pre, ctypeOf r ≠ "text/html")
    (hq : ctypeOf q = "text/html")
    (hc : getContentOf q = .ok (.str hs)) :
    extract_body decR (.multi mc mcs) = pyStrip (stripTags hs) := by
  have hscan : scanHtml (walk (.multi mc mcs)) = some (pyStrip (stripTags hs)) := by
    rw [hw, scanHtml_skip pre (q :: post) hpre, scanHtml, if_pos hq, hc]
  simp [extract_body, hplain, hscan]

/-- The witness message for C10: an empty plain-text part next to a
non-empty HTML part. -/
def witC10Msg : MsgPart :=
  .multi "multipart/alternative"
    [.leaf ⟨"text/plain", .ok (.str ""), none⟩,
     .leaf ⟨"text/html", .ok (.str "<b>hi</b> there!"), none⟩]

/-- C10 witness: the empty plain-text part is not returned; the tag-stripped
HTML text is. -/
theorem claim_C10_witness : extract_body codecsR witC10Msg = "hi there!" := by
  have h := claim_C10_theorem codecsR "multipart/alternative" _
    [witC10Msg, .leaf ⟨"text/plain", .ok (.str ""), none⟩] []
    (.leaf ⟨"text/html", .ok (.str "<b>hi</b> there!"), none⟩) "<b>hi</b> there!"
    (by decide) rfl (by decide) rfl rfl
  exact h.trans (by decide)

/-! ### Claim C5 -/

/-- The head of `dropWhile p`, when present, fails `p`. -/
theorem dropWhile_head_not (p : Char → Bool) :
    ∀ (l : List Char) (a : Char), (l.dropWhile p).head? = some a → p a = false
  | [], _, h => by cases h
  | c :: l, a, h => by
    by_cases hc : p c = true
    · rw [List.dropWhile_cons, if_pos hc] at h
      exact dropWhile_head_not p l a h
    · rw [List.dropWhile_cons, if_neg hc] at h
      cases h
      exact Bool.not_eq_true _ ▸ hc

/-- `dropWhile p l` is a suffix of `l`. -/
theorem exists_append_dropWhile (p : Char → Bool) :
    ∀ l : List Char, ∃ t, t ++ l.dropWhile p = l
  | [] => ⟨[], rfl⟩
  | c :: l => by
    by_cases hc : p c = true
    · obtain ⟨t, ht⟩ := exists_append_dropWhile p l
      refine ⟨c :: t, ?_⟩
      rw [List.dropWhile_cons, if_pos hc, List.cons_append, ht]
    · exact ⟨[], by rw [List.dropWhile_cons, if_neg hc]; rfl⟩

/-- The first character of a stripped string, when present, is not
whitespace. -/
theorem pyStrip_head (s : String) (a : Char)
    (h : (pyStrip s).data.head? = some a) : a.isWhitespace = false := by
  obtain ⟨t, ht⟩ :=
    exists_append_dropWhile Char.isWhitespace (s.data.dropWhile Char.isWhitespace).reverse
  have hM : (pyStrip s).data ++ t.reverse = s.data.dropWhile Char.isWhitespace := by
    have h2 := congrArg List.reverse ht
    rw [List.reverse_append, List.reverse_reverse] at h2
    exact h2
  cases hd : (pyStrip s).data with
  | nil => rw [hd] at h; cases h
  | cons c rest =>
    rw [hd] at h
    cases h
    refine dropWhile_head_not Char.isWhitespace s.data a ?_
    rw [← hM, hd]
    rfl

/-- The last character of a stripped string, when present, is not
whitespace. -/
theorem pyStrip_getLast (s : String) (a : Char)
    (h : (pyStrip s).data.getLast? = some a) : a.isWhitespace = false := by
  have hrev : (pyStrip s).data.reverse =
      (s.data.dropWhile Char.isWhitespace).reverse.dropWhile Char.isWhitespace := by
    show (((s.data.dropWhile Char.isWhitespace).reverse.dropWhile
      Char.isWhitespace).reverse).reverse = _
    rw [List.reverse_reverse]
  refine dropWhile_head_not Char.isWhitespace
    (s.data.dropWhile Char.isWhitespace).reverse a ?_
  rw [← hrev, List.head?_reverse]
  exact h

/-- C5 (confirmed): every ParsedMessage has a non-empty subject — the fixed
placeholder is substituted when the Subject header is absent (or decodes to
the empty string) — and a body stripped of leading and trailing
whitespace. -/
theorem claim_C5_theorem (dec decR : String → List Nat → Option String)
    (degraded : List Nat → Option String → String) (m : EmlMessage) :
    (parse_eml dec decR degraded m).subject ≠ "" ∧
    (m.subjectH = none → (parse_eml dec decR degraded m).subject = "(件名なし)") ∧
    (∀ c, (parse_eml dec decR degraded m).body.data.head? = some c →
      c.isWhitespace = false) ∧
    (∀ c, (parse_eml dec decR degraded m).body.data.getLast? = some c →
      c.isWhitespace = false) := by
  refine ⟨?_, ?_, ?_, ?_⟩
  · by_cases h0 : getHeader dec degraded m.subjectH = ""
    · simp [parse_eml, h0]
    · simp [parse_eml, h0]
  · intro hnone
    simp [parse_eml, getHeader, hnone]
  · exact fun c h => pyStrip_head _ c h
  · exact fun c h => pyStrip_getLast _ c h

/-- The witness message for C5: no Subject header, body with surrounding
whitespace. -/
def witC5Msg : EmlMessage :=
  ⟨none, none, none, none, none, .leaf ⟨"text/plain", .ok (.str " a b \n"), none⟩⟩

/-- C5 witness: the placeholder subject is substituted and is non-empty. -/
theorem claim_C5_witness :
    (parse_eml codecs codecsR degradedStandIn witC5Msg).subject = "(件名なし)" ∧
    (parse_eml codecs codecsR degradedStandIn witC5Msg).subject ≠ "" := by
  have h := claim_C5_theorem codecs codecsR degradedStandIn witC5Msg
  exact ⟨h.2.1 rfl, h.1⟩

/-! ### Claims C6, C7, C8 -/

/-- C6 (confirmed): on a source directory with zero files of the expected
extension the Batch Driver returns `(0, 0, <no-files summary>)` after
creating the destination directory, writes no output file and never invokes
the progress callback. -/
theorem claim_C6_theorem (dir : List String) (conv : String → Except PyExc Unit)
    (h : ∀ f ∈ dir, matchesEml f = false) :
    batch_convert dir conv = .ok ⟨0, 0, ".eml ファイルが見つかりません", [], [], true⟩ := by
  have hf : dir.filter (fun f => matchesEml f) = [] := by
    rw [List.filter_eq_nil_iff]
    intro a ha
    simp [h a ha]
  simp [batch_convert, emlFilesOf, hf, sortNames]

/-- C6 witness: a directory holding only a non-matching file name. -/
theorem claim_C6_witness :
    batch_convert ["readme.txt"] (fun _ => .ok ()) =
      .ok ⟨0, 0, ".eml ファイルが見つかりません", [], [], true⟩ :=
  claim_C6_theorem ["readme.txt"] (fun _ => .ok ()) (by decide)

/-- When every per-file failure is an `Exception`-class error, the loop
completes and produces exactly the counters, callback invocations and
output files predicted file by file. -/
theorem batchLoop_all_handled (conv : String → Except PyExc Unit) (total : Nat) :
    ∀ (fs : List String) (i : Nat),
      (∀ f ∈ fs, ∀ exc, conv f = .error exc → exc.isException = true) →
      batchLoop conv total fs i =
        .ok (succCount conv fs, failCount conv fs, expectedEvents conv total fs i,
          expectedWritten conv fs)
  | [], _, _ => rfl
  | f :: fs, i, h => by
    have ih := batchLoop_all_handled conv total fs (i + 1)
      (fun g hg => h g (List.mem_cons_of_mem f hg))
    cases hc : conv f with
    | ok u =>
      cases u
      simp [batchLoop, hc, ih, succCount, failCount, expectedEvents, expectedWritten]
    | error exc =>
      have hex : exc.isException = true := h f (List.mem_cons_self f fs) exc hc
      simp [batchLoop, hc, hex, ih, succCount, failCount, expectedEvents, expectedWritten]

/-- C7 (confirmed): with at least one matching file, when every per-file
failure is a handled (`Exception`-class) error the batch completes: each
failing file increments the failed counter and produces a callback
invocation with `ok = false` and the error description, each succeeding
file increments the success counter, and every file in sorted order gets
its 1-based-indexed invocation — no per-file failure aborts the batch. -/
theorem claim_C7_theorem (dir : List String) (conv : String → Except PyExc Unit)
    (hne : emlFilesOf dir ≠ [])
    (h : ∀ f ∈ emlFilesOf dir, ∀ exc, conv f = .error exc → exc.isException = true) :
    batch_convert dir conv =
      .ok ⟨succCount conv (emlFilesOf dir), failCount conv (emlFilesOf dir),
        mkSummary (succCount conv (emlFilesOf dir)) (failCount conv (emlFilesOf dir))
          (emlFilesOf dir).length,
        expectedEvents conv (emlFilesOf dir).length (emlFilesOf dir) 0,
        expectedWritten conv (emlFilesOf dir), true⟩ := by
  have hloop := batchLoop_all_handled conv (emlFilesOf dir).length (emlFilesOf dir) 0 h
  have hemp : (emlFilesOf dir).isEmpty = false := by
    cases hfs : emlFilesOf dir with
    | nil => exact absurd hfs hne
    | cons a as => rfl
  simp [batch_convert, hemp, hloop]

/-- The conversion oracle of the C7 witness: the file `a.eml` fails with a
value error, every other file converts. -/
def convW7 : String → Except PyExc Unit :=
  fun f => if f = "a.eml" then .error (.valueError "bad") else .ok ()

/-- C7 witness: of two files the first fails and the second still gets
processed; the counters, both callback invocations and the single output
file are as predicted. -/
theorem claim_C7_witness :
    batch_convert ["b.eml", "a.eml"] convW7 =
      .ok ⟨1, 1, "完了: 1/2 件成功, 1 件エラー",
        [(1, 2, "a.eml", false, some "bad"), (2, 2, "b.eml", true, none)],
        ["b.pdf"], true⟩ := by
  have hh : ∀ f ∈ emlFilesOf ["b.eml", "a.eml"], ∀ exc, convW7 f = .error exc →
      exc.isException = true := by
    intro f hf exc hc
    have hfiles : emlFilesOf ["b.eml", "a.eml"] = ["a.eml", "b.eml"] := by decide
    rw [hfiles] at hf
    have hf2 : f = "a.eml" ∨ f = "b.eml" := by simpa using hf
    rcases hf2 with h1 | h1
    · rw [h1] at hc
      simp [convW7] at hc
      rw [← hc]
      rfl
    · rw [h1] at hc
      simp [convW7] at hc
  have h := claim_C7_theorem ["b.eml", "a.eml"] convW7 (by decide) hh
  exact h.trans (by decide)

/-- Once the loop reaches a file whose conversion raises outside the
`Exception` class (every earlier failure being handled), that exception
propagates out of the loop. -/
theorem batchLoop_first_unhandled (conv : String → Except PyExc Unit) (total : Nat)
    (exc : PyExc) :
    ∀ (pre : List String) (f : String) (post : List String) (i : Nat),
      (∀ g ∈ pre, ∀ e, conv g = .error e → e.isException = true) →
      conv f = .error exc → exc.isException = false →
      batchLoop conv total (pre ++ f :: post) i = .error exc
  | [], f, post, i, _, hf, hexc => by
    simp [batchLoop, hf, hexc]
  | g :: pre, f, post, i, hpre, hf, hexc => by
    have ih := batchLoop_first_unhandled conv total exc pre f post (i + 1)
      (fun g' hg' => hpre g' (List.mem_cons_of_mem g hg')) hf hexc
    cases hc : conv g with
    | ok u =>
      cases u
      simp [batchLoop, hc, ih]
    | error e =>
      have he : e.isException = true := hpre g (List.mem_cons_self g pre) e hc
      simp [batchLoop, hc, he, ih]

/-- C8 counterexample: a type error — a programming error, neither a file
I/O error nor a value/format error — raised while processing a file does
not propagate: the blanket `except Exception` recovers it, the file is
counted as a failure and the batch completes normally. -/
theorem claim_C8_counterexample :
    PyExc.isExpected (.typeError "unexpected") = false ∧
    batch_convert ["a.eml"] (fun _ => .error (.typeError "unexpected")) =
      .ok ⟨0, 1, "完了: 0/1 件成功, 1 件エラー",
        [(1, 1, "a.eml", false, some "unexpected")], [], true⟩ := by
  refine ⟨rfl, ?_⟩
  decide

/-- C8 (amended): the Batch Driver recovers every error of the general
`Exception` class raised while processing a file — including programming
errors such as type errors, not only I/O and value/format errors; only
exceptions outside that class (such as keyboard interrupt or system exit)
propagate out of the batch run and terminate it. -/
theorem claim_C8_theorem (dir : List String) (conv : String → Except PyExc Unit)
    (pre : List String) (f : String) (post : List String) (exc : PyExc)
    (hsplit : emlFilesOf dir = pre ++ f :: post)
    (hpre : ∀ g ∈ pre, ∀ e, conv g = .error e → e.isException = true)
    (hf : conv f = .error exc)
    (hexc : exc.isException = false) :
    batch_convert dir conv = .error exc := by
  have hemp : (emlFilesOf dir).isEmpty = false := by
    rw [hsplit]
    cases pre <;> rfl
  have hloop := batchLoop_first_unhandled conv (emlFilesOf dir).length exc
    pre f post 0 hpre hf hexc
  rw [← hsplit] at hloop
  simp [batch_convert, hemp, hloop]

/-- The conversion oracle of the C8 witness: the file `b.eml` raises a
keyboard interrupt, every other file converts. -/
def convW8 : String → Except PyExc Unit :=
  fun f => if f = "b.eml" then .error .keyboardInterrupt else .ok ()

/-- C8 witness: a keyboard interrupt — outside the `Exception` class —
raised on the second file propagates and terminates the batch. -/
theorem claim_C8_witness :
    batch_convert ["a.eml", "b.eml"] convW8 = .error .keyboardInterrupt := by
  refine claim_C8_theorem ["a.eml", "b.eml"] convW8 ["a.eml"] "b.eml" [] .keyboardInterrupt
    (by decide) ?_ rfl rfl
  intro g hg e he
  have hg2 : g = "a.eml" := by simpa using hg
  rw [hg2] at he
  simp [convW8] at he

/-! ### Claim C9 -/

/-- A replacement pass introduces no occurrence of a character that is
absent from both the input and the replacement text. -/
theorem pyReplaceAux_keeps_out (a : Char) (pat rep : List Char) (hrep : a ∉ rep) :
    ∀ (n : Nat) (cs : List Char), cs.length ≤ n → a ∉ cs → a ∉ pyReplaceAux pat rep n cs
  | 0, cs, hlen, hcs => by
    have : cs = [] := List.eq_nil_of_length_eq_zero (Nat.le_zero.mp hlen)
    subst this
    simp [pyReplaceAux]
  | n + 1, [], _, _ => by simp [pyReplaceAux]
  | n + 1, c :: cs, hlen, hcs => by
    rw [pyReplaceAux]
    by_cases hcond : (c :: cs).take pat.length = pat ∧ pat ≠ []
    · rw [if_pos hcond]
      have hpat1 : 1 ≤ pat.length := by
        cases hp : pat with
        | nil => exact absurd hp hcond.2
        | cons x xs => simp
      have hdlen : ((c :: cs).drop pat.length).length ≤ n := by
        rw [List.length_drop]
        have : (c :: cs).length ≤ n + 1 := hlen
        omega
      have hdmem : a ∉ (c :: cs).drop pat.length :=
        fun hmem => hcs (List.drop_subset _ _ hmem)
      intro hm
      rcases List.mem_append.mp hm with h1 | h1
      · exact hrep h1
      · exact pyReplaceAux_keeps_out a pat rep hrep n _ hdlen hdmem h1
    · rw [if_neg hcond]
      intro hm
      rcases List.mem_cons.mp hm with h1 | h1
      · exact hcs (h1 ▸ List.mem_cons_self c cs)
      · exact pyReplaceAux_keeps_out a pat rep hrep n cs
          (Nat.le_of_succ_le_succ hlen) (fun h2 => hcs (List.mem_cons_of_mem c h2)) h1

/-- A replacement pass whose pattern is the single character `a` removes
every occurrence of `a`, provided the replacement text does not contain
`a`. -/
theorem pyReplaceAux_kills (a : Char) (rep : List Char) (hrep : a ∉ rep) :
    ∀ (n : Nat) (cs : List Char), cs.length ≤ n → a ∉ pyReplaceAux [a] rep n cs
  | 0, cs, hlen => by
    have : cs = [] := List.eq_nil_of_length_eq_zero (Nat.le_zero.mp hlen)
    subst this
    simp [pyReplaceAux]
  | n + 1, [], _ => by simp [pyReplaceAux]
  | n + 1, c :: cs, hlen => by
    rw [pyReplaceAux]
    by_cases hac : c = a
    · have hcond : (c :: cs).take ([a] : List Char).length = [a] ∧ ([a] : List Char) ≠ [] := by
        subst hac
        exact ⟨rfl, by simp⟩
      rw [if_pos hcond]
      intro hm
      rcases List.mem_append.mp hm with h1 | h1
      · exact hrep h1
      · exact pyReplaceAux_kills a rep hrep n _
          (by simpa using Nat.le_of_succ_le_succ hlen) h1
    · have hcond : ¬((c :: cs).take ([a] : List Char).length = [a] ∧ ([a] : List Char) ≠ []) := by
        intro hcond
        have : c = a := by
          have h1 : (c :: cs).take 1 = [a] := hcond.1
          simpa using h1
        exact hac this
      rw [if_neg hcond]
      intro hm
      rcases List.mem_cons.mp hm with h1 | h1
      · exact hac h1.symm
      · exact pyReplaceAux_kills a rep hrep n cs (Nat.le_of_succ_le_succ hlen) h1

/-- String-level form of `pyReplaceAux_keeps_out`. -/
theorem pyReplace_keeps_out (a : Char) (s pat rep : String)
    (hrep : a ∉ rep.data) (hs : a ∉ s.data) : a ∉ (pyReplace s pat rep).data :=
  pyReplaceAux_keeps_out a pat.data rep.data hrep s.data.length s.data le_rfl hs

/-- String-level form of `pyReplaceAux_kills`. -/
theorem pyReplace_kills (a : Char) (s pat rep : String)
    (hpat : pat.data = [a]) (hrep : a ∉ rep.data) : a ∉ (pyReplace s pat rep).data := by
  have h := pyReplaceAux_kills a rep.data hrep s.data.length s.data le_rfl
  show a ∉ pyReplaceAux pat.data rep.data s.data.length s.data
  rw [hpat]
  exact h

/-- C9 (confirmed): the escaping applied to every text embedded in the
renderer's markup replaces the markup-significant characters with their
entities (and each two-space occurrence with a non-breaking-space pair), so
its output never contains a literal `<`, `>` or `"` character. -/
theorem claim_C9_theorem (t : String) :
    '<' ∉ (escape_para t).data ∧ '>' ∉ (escape_para t).data ∧
      '"' ∉ (escape_para t).data := by
  show '<' ∉ (pyReplace (pyReplace (pyReplace (pyReplace (pyReplace t "&" "&amp;")
      "<" "&lt;") ">" "&gt;") "\"" "&quot;") "  " "&nbsp; ").data ∧
    '>' ∉ (pyReplace (pyReplace (pyReplace (pyReplace (pyReplace t "&" "&amp;")
      "<" "&lt;") ">" "&gt;") "\"" "&quot;") "  " "&nbsp; ").data ∧
    '"' ∉ (pyReplace (pyReplace (pyReplace (pyReplace (pyReplace t "&" "&amp;")
      "<" "&lt;") ">" "&gt;") "\"" "&quot;") "  " "&nbsp; ").data
  refine ⟨?_, ?_, ?_⟩
  · refine pyReplace_keeps_out '<' _ _ _ (by decide) ?_
    refine pyReplace_keeps_out '<' _ _ _ (by decide) ?_
    refine pyReplace_keeps_out '<' _ _ _ (by decide) ?_
    exact pyReplace_kills '<' _ _ _ (by decide) (by decide)
  · refine pyReplace_keeps_out '>' _ _ _ (by decide) ?_
    refine pyReplace_keeps_out '>' _ _ _ (by decide) ?_
    exact pyReplace_kills '>' _ _ _ (by decide) (by decide)
  · refine pyReplace_keeps_out '"' _ _ _ (by decide) ?_
    exact pyReplace_kills '"' _ _ _ (by decide) (by decide)

end Eml2Pdf
